import Mathlib

/-!
Verification of the scrum poker backend (`main.py`).

The backend is a set of request handlers over four logical tables
(`users`, `rooms`, `room_users`, `estimates`).  We embed the store as
lists of rows (insertion order = creation order), Python strings that
undergo character-level operations (join codes, the Authorization
header) as `List Char`, opaque identifiers as `String`, and float
estimate values as `ℚ`.  Each handler is a function from the store and
its arguments to `Except (Err × DB) (α × DB)`: an error carries the
store as it stands when the exception is raised (writes performed
before the raise persist), a success carries the payload and the final
store.  Randomness (the `uuid4().hex` draws behind join-code
generation) is passed in explicitly as a list of hex strings, and
freshly generated row ids are passed as arguments.
-/

deriving instance DecidableEq for Except

namespace ScrumPoker

/-- One row of the `users` table: `users(id, username, avatar_url)`. -/
structure UserRow where
  id : String
  username : Option String
  avatar_url : Option String
deriving DecidableEq, Repr

/-- One row of the `rooms` table:
`rooms(id, join_code, created_by, estimation_unit, revealed, average, is_active)`. -/
structure RoomRow where
  id : String
  join_code : List Char
  created_by : String
  estimation_unit : String
  revealed : Bool
  average : Option ℚ
  is_active : Bool
deriving DecidableEq, Repr

/-- One row of the `room_users` membership table: `room_users(id, room_id, user_id)`. -/
structure RoomUserRow where
  id : String
  room_id : String
  user_id : String
deriving DecidableEq, Repr

/-- One row of the `estimates` table: `estimates(id, room_id, user_id, value)`.
The `value` column is nullable. -/
structure EstimateRow where
  id : String
  room_id : String
  user_id : String
  value : Option ℚ
deriving DecidableEq, Repr

/-- The backing store: the four tables, each a list of rows in insertion order. -/
structure DB where
  users : List UserRow
  rooms : List RoomRow
  room_users : List RoomUserRow
  estimates : List EstimateRow
deriving DecidableEq, Repr

/-- An `HTTPException(status_code, detail)`. -/
structure Err where
  status : Nat
  detail : String
deriving DecidableEq, Repr

/-- Embeds `supabase.table("rooms").select(...).eq("id", room_id)`. -/
def roomsWithId (db : DB) (room_id : String) : List RoomRow :=
  db.rooms.filter (fun r => r.id == room_id)

/-- Embeds `supabase.table("rooms").select(...).eq("join_code", join_code)`. -/
def roomsWithCode (db : DB) (join_code : List Char) : List RoomRow :=
  db.rooms.filter (fun r => r.join_code == join_code)

/-- Embeds `supabase.table("room_users").select(...).eq("room_id", room_id).eq("user_id", user_id)`. -/
def memberships (db : DB) (room_id user_id : String) : List RoomUserRow :=
  db.room_users.filter (fun m => m.room_id == room_id && m.user_id == user_id)

/-- Embeds `supabase.table("room_users").select(...).eq("room_id", room_id)`. -/
def roomMembers (db : DB) (room_id : String) : List RoomUserRow :=
  db.room_users.filter (fun m => m.room_id == room_id)

/-- Embeds `supabase.table("estimates").select(...).eq("room_id", room_id)`. -/
def roundEstimates (db : DB) (room_id : String) : List EstimateRow :=
  db.estimates.filter (fun e => e.room_id == room_id)

/-- Embeds `supabase.table("estimates").select(...).eq("room_id", room_id).eq("user_id", user_id)`. -/
def userEstimates (db : DB) (room_id user_id : String) : List EstimateRow :=
  db.estimates.filter (fun e => e.room_id == room_id && e.user_id == user_id)

/-! ### Python string primitives -/

/-- Python `str.strip()`: drop leading and trailing whitespace. -/
def pyStrip (s : List Char) : List Char :=
  ((s.dropWhile Char.isWhitespace).reverse.dropWhile Char.isWhitespace).reverse

/-- Python `str.upper()` (ASCII fragment, which is all join codes use). -/
def pyUpper (s : List Char) : List Char :=
  s.map Char.toUpper

/-- Python `str.lower()` (ASCII fragment). -/
def pyLower (s : List Char) : List Char :=
  s.map Char.toLower

/-- Python `str.split()` with no arguments: maximal runs of
non-whitespace characters, leading/trailing/repeated separators dropped. -/
def pySplitWs (s : List Char) : List (List Char) :=
  (s.splitOnP Char.isWhitespace).filter (fun t => !t.isEmpty)

/-! ### Auth helpers (`_extract_bearer_token`, `get_current_user_id`) -/

/-- Outcome of `GET {SUPABASE_URL}/auth/v1/user` for a given token:
either the provider is unreachable (`httpx.HTTPError`), or it answers
with a status code and an optional `id` field (`none` models an absent
or null `id` in the payload). -/
inductive AuthResponse where
  | unreachable : AuthResponse
  | response (status : Nat) (uid : Option String) : AuthResponse
deriving DecidableEq, Repr

/-- Embeds `_extract_bearer_token(authorization)`: `None` on a falsy header;
otherwise split on whitespace and accept exactly two parts whose first
is `bearer` case-insensitively. -/
def extractBearerToken (authorization : Option (List Char)) : Option (List Char) :=
  match authorization with
  | none => none
  | some a =>
    if a.isEmpty then none
    else
      match pySplitWs a with
      | [p0, p1] => if pyLower p0 == "bearer".toList then some p1 else none
      | _ => none

/-- Embeds `get_current_user_id(request, fallback_user_id)`: resolve the user id
from the bearer token via the identity provider, falling back to the
caller-supplied id only when no token was extracted. -/
def get_current_user_id (provider : List Char → AuthResponse)
    (authorization : Option (List Char)) (fallback_user_id : Option String) :
    Except Err String :=
  match extractBearerToken authorization with
  | some token =>
    match provider token with
    | .unreachable => .error ⟨503, "Auth service unavailable"⟩
    | .response status uid =>
      if status ≠ 200 then .error ⟨401, "Invalid or expired token"⟩
      else
        match uid with
        | some u => if u == "" then .error ⟨401, "Invalid token payload"⟩ else .ok u
        | none => .error ⟨401, "Invalid token payload"⟩
  | none =>
    match fallback_user_id with
    | some f => if f == "" then .error ⟨401, "Authorization token required"⟩ else .ok f
    | none => .error ⟨401, "Authorization token required"⟩

/-! ### Utilities (`generate_join_code`, `get_room_by_code`, `ensure_membership`, `list_members`) -/

/-- Embeds `generate_join_code()` = `uuid.uuid4().hex[:6].upper()`, as a function
of the hex expansion of the random uuid. -/
def generate_join_code (hex : List Char) : List Char :=
  (hex.take 6).map Char.toUpper

/-- Embeds `get_room_by_code(join_code)`: all rooms with this exact code;
404 if none, the first row otherwise. -/
def get_room_by_code (db : DB) (join_code : List Char) : Except Err RoomRow :=
  match roomsWithCode db join_code with
  | [] => .error ⟨404, "Room not found"⟩
  | r :: _ => .ok r

/-- Embeds `ensure_membership(room_id, user_id)`: 403 when no membership row exists. -/
def ensure_membership (db : DB) (room_id user_id : String) : Except Err Unit :=
  if (memberships db room_id user_id).isEmpty then .error ⟨403, "User not in room"⟩
  else .ok ()

/-- A member as returned to callers of `join-room`. -/
structure Member where
  user_id : String
  username : Option String
  avatar_url : Option String
deriving DecidableEq, Repr

/-- The profile row used for a given user id: the `in_("id", ids)` fetch
followed by the dict comprehension keeps, per id, the last row fetched. -/
def profileFor (db : DB) (uid : String) : Option UserRow :=
  (db.users.filter (fun u => u.id == uid)).getLast?

/-- Embeds `list_members(room_id)`: membership rows in join order, each resolved
against the profile table; a missing profile yields null fields. -/
def list_members (db : DB) (room_id : String) : List Member :=
  ((roomMembers db room_id).map (fun m => m.user_id)).map (fun uid =>
    { user_id := uid
      username := (profileFor db uid).bind (fun u => u.username)
      avatar_url := (profileFor db uid).bind (fun u => u.avatar_url) })

/-! ### Endpoints -/

/-- Embeds `(req.estimation_unit or "points").lower()`, then restricted to the
two recognized units with `"points"` as the default. -/
def normalizeUnit (estimation_unit : Option String) : String :=
  let u := (match estimation_unit with
    | some s => if s == "" then "points" else s
    | none => "points").toLower
  if u == "points" || u == "days" then u else "points"

/-- The join-code retry loop body: scan candidates in order, return the
first whose code is absent from the `rooms` table. -/
def pickJoinCode (rooms : List RoomRow) : List (List Char) → Option (List Char)
  | [] => none
  | c :: rest =>
    if (rooms.filter (fun r => r.join_code == c)).isEmpty then some c
    else pickJoinCode rooms rest

/-- Response of `POST /create-room`. -/
structure CreateRoomOut where
  room_id : String
  join_code : List Char
deriving DecidableEq, Repr

/-- The "ensure user exists" block of `create_room`: insert a minimal
user row when the id has none. -/
def ensureUserRow (db : DB) (user_id : String) : DB :=
  if (db.users.filter (fun u => u.id == user_id)).isEmpty then
    { db with users := db.users ++ [⟨user_id, none, none⟩] }
  else db

/-- Embeds `create_room`: ensure a minimal user row, draw up to 6 join-code
candidates (500 if all collide), insert the room, enroll the creator. -/
def create_room (db : DB) (user_id : String) (estimation_unit : Option String)
    (hexes : List (List Char)) (new_room_id new_member_id : String) :
    Except (Err × DB) (CreateRoomOut × DB) :=
  let unit := normalizeUnit estimation_unit
  let db1 := ensureUserRow db user_id
  match pickJoinCode db1.rooms ((hexes.map generate_join_code).take 6) with
  | none => .error (⟨500, "Could not generate unique join code"⟩, db1)
  | some code =>
    let room : RoomRow :=
      { id := new_room_id, join_code := code, created_by := user_id
        estimation_unit := unit, revealed := false, average := none, is_active := true }
    let db2 := { db1 with rooms := db1.rooms ++ [room] }
    let db3 :=
      if (memberships db2 new_room_id user_id).isEmpty then
        { db2 with room_users := db2.room_users ++ [⟨new_member_id, new_room_id, user_id⟩] }
      else db2
    .ok (⟨new_room_id, code⟩, db3)

/-- Response of `POST /join-room`. -/
structure JoinRoomOut where
  room_id : String
  join_code : List Char
  members : List Member
deriving DecidableEq, Repr

/-- Embeds `req.join_code.strip().upper()`. -/
def normCode (raw : List Char) : List Char :=
  pyUpper (pyStrip raw)

/-- Embeds `join_room`: normalize the code, look the room up, refuse inactive
rooms and full rooms (for non-members), insert membership if absent. -/
def join_room (db : DB) (raw_join_code : List Char) (user_id new_member_id : String) :
    Except (Err × DB) (JoinRoomOut × DB) :=
  let join_code := normCode raw_join_code
  match get_room_by_code db join_code with
  | .error e => .error (e, db)
  | .ok room =>
    if !room.is_active then .error (⟨403, "Room is not active"⟩, db)
    else
      let existing := memberships db room.id user_id
      let all_members := roomMembers db room.id
      if all_members.length ≥ 15 && existing.isEmpty then
        .error (⟨403, "Room is full"⟩, db)
      else
        let db1 :=
          if existing.isEmpty then
            { db with room_users := db.room_users ++ [⟨new_member_id, room.id, user_id⟩] }
          else db
        .ok (⟨room.id, join_code, list_members db1 room.id⟩, db1)

/-- Embeds `submit_estimate`: room existence, membership, then upsert — update
the first existing row's value in place, or insert a fresh row. -/
def submit_estimate (db : DB) (room_id user_id : String) (estimate : ℚ)
    (new_estimate_id : String) : Except (Err × DB) (Unit × DB) :=
  if (roomsWithId db room_id).isEmpty then .error (⟨404, "Room not found"⟩, db)
  else
    match ensure_membership db room_id user_id with
    | .error e => .error (e, db)
    | .ok _ =>
      match userEstimates db room_id user_id with
      | [] =>
        let db1 := { db with estimates :=
          db.estimates ++ [⟨new_estimate_id, room_id, user_id, some estimate⟩] }
        .ok ((), db1)
      | e0 :: _ =>
        let db1 := { db with estimates := db.estimates.map (fun e =>
          if e.id == e0.id then { e with value := some estimate } else e) }
        .ok ((), db1)

/-- One entry of the reveal result list: `{"user": name, "estimate": value}`. -/
structure RevealEntry where
  user : Option String
  estimate : Option ℚ
deriving DecidableEq, Repr

/-- The `name_map.get(...)` lookup of `reveal`: the username of the last
fetched profile row for the id, null when absent. -/
def revealName (db : DB) (uid : String) : Option String :=
  (profileFor db uid).bind (fun u => u.username)

/-- The `total, count` accumulation loop of `reveal` over estimate rows. -/
def sumCount (est : List EstimateRow) : ℚ × Nat :=
  est.foldl (fun acc e =>
    match e.value with
    | some v => (acc.1 + v, acc.2 + 1)
    | none => acc) (0, 0)

/-- Embeds `reveal`: room existence, membership, 404 on an empty ledger, then
the result list, the average over non-null values (0 if none), and the
persisted `revealed`/`average` update. -/
def reveal (db : DB) (room_id user_id : String) :
    Except (Err × DB) ((List RevealEntry × ℚ) × DB) :=
  if (roomsWithId db room_id).isEmpty then .error (⟨404, "Room not found"⟩, db)
  else
    match ensure_membership db room_id user_id with
    | .error e => .error (e, db)
    | .ok _ =>
      let est := roundEstimates db room_id
      if est.isEmpty then .error (⟨404, "No estimates found"⟩, db)
      else
        let entries := est.map (fun e => ⟨revealName db e.user_id, e.value⟩)
        let tc := sumCount est
        let average : ℚ := if tc.2 > 0 then tc.1 / (tc.2 : ℚ) else 0
        let db1 := { db with rooms := db.rooms.map (fun r =>
          if r.id == room_id then { r with revealed := true, average := some average }
          else r) }
        .ok ((entries, average), db1)

/-- Embeds `reset`: room existence, membership, delete the room's estimate rows,
clear `revealed` and `average`. -/
def reset (db : DB) (room_id user_id : String) : Except (Err × DB) (Unit × DB) :=
  if (roomsWithId db room_id).isEmpty then .error (⟨404, "Room not found"⟩, db)
  else
    match ensure_membership db room_id user_id with
    | .error e => .error (e, db)
    | .ok _ =>
      let db1 := { db with estimates := db.estimates.filter (fun e => !(e.room_id == room_id)) }
      let db2 := { db1 with rooms := db1.rooms.map (fun r =>
        if r.id == room_id then { r with revealed := false, average := none } else r) }
      .ok ((), db2)

/-- Iterated `submit_estimate` by one user in one room, one call per
(value, fresh id) pair. -/
def submitSeq (db : DB) (room_id user_id : String) :
    List (ℚ × String) → Except (Err × DB) DB
  | [] => .ok db
  | (v, nid) :: rest =>
    match submit_estimate db room_id user_id v nid with
    | .ok (_, db1) => submitSeq db1 room_id user_id rest
    | .error e => .error e

/-! ### Concrete stores used to exercise the handlers -/

/-- A room `r1` with three members and submitted estimates 5, 8, 13. -/
def dbRevealEx : DB :=
  { users := [⟨"u1", some "ann", none⟩, ⟨"u2", none, none⟩, ⟨"u3", some "cal", none⟩]
    rooms := [⟨"r1", ['A', 'B', 'C', '1', '2', '3'], "u1", "points", false, none, true⟩]
    room_users := [⟨"m1", "r1", "u1"⟩, ⟨"m2", "r1", "u2"⟩, ⟨"m3", "r1", "u3"⟩]
    estimates := [⟨"e1", "r1", "u1", some 5⟩, ⟨"e2", "r1", "u2", some 8⟩,
      ⟨"e3", "r1", "u3", some 13⟩] }

/-- The same room with an empty estimate ledger. -/
def dbEmptyEx : DB :=
  { dbRevealEx with estimates := [] }

/-! ### General lemmas about the handlers -/

/-- The non-null estimate values of a room, in ledger order. -/
def nonNullValues (db : DB) (room_id : String) : List ℚ :=
  (roundEstimates db room_id).filterMap (fun e => e.value)

theorem sumCount_go (l : List EstimateRow) (a : ℚ) (n : Nat) :
    l.foldl (fun acc e =>
      match e.value with
      | some v => (acc.1 + v, acc.2 + 1)
      | none => acc) (a, n)
    = (a + (l.filterMap (fun e => e.value)).sum,
       n + (l.filterMap (fun e => e.value)).length) := by
  induction l generalizing a n with
  | nil => simp
  | cons e es ih =>
    cases hv : e.value with
    | none => simp [hv, List.filterMap_cons, ih]
    | some v =>
      simp only [List.foldl_cons, hv, List.filterMap_cons, List.sum_cons,
        List.length_cons, ih]
      refine Prod.ext ?_ ?_
      · simp
        ring
      · simp
        omega

/-- The `total, count` loop of `reveal` computes the sum and the number
of non-null values. -/
theorem sumCount_eq (est : List EstimateRow) :
    sumCount est = ((est.filterMap (fun e => e.value)).sum,
      (est.filterMap (fun e => e.value)).length) := by
  simpa [sumCount] using sumCount_go est 0 0

/-- C1: a successful reveal returns the arithmetic mean of the non-null
estimate values (0 when every value is null), one result entry per
estimate row, and persists `revealed = true` together with that average
on the room. -/
theorem reveal_average_correct (db : DB) (rid uid : String)
    (out : List RevealEntry × ℚ) (db' : DB)
    (h : reveal db rid uid = .ok (out, db')) :
    (nonNullValues db rid ≠ [] →
      out.2 = (nonNullValues db rid).sum / ((nonNullValues db rid).length : ℚ))
    ∧ (nonNullValues db rid = [] → out.2 = 0)
    ∧ out.1.length = (roundEstimates db rid).length
    ∧ db'.rooms = db.rooms.map (fun r =>
        if r.id == rid then { r with revealed := true, average := some out.2 }
        else r) := by
  obtain ⟨entries0, avg0⟩ := out
  simp only [reveal] at h
  split at h
  · simp at h
  · split at h
    · simp at h
    · split at h
      · simp at h
      · simp only [Except.ok.injEq, Prod.mk.injEq] at h
        obtain ⟨⟨hent, havg⟩, hdb⟩ := h
        subst hent havg hdb
        refine ⟨?_, ?_, ?_, ?_⟩
        · intro hne
          simp only [sumCount_eq]
          rw [if_pos]
          · rfl
          · simpa [nonNullValues] using List.length_pos.mpr hne
        · intro hz
          simp only [sumCount_eq]
          rw [if_neg]
          simp only [nonNullValues] at hz
          simp [hz]
        · simp
        · rfl

/-- The entries and store produced by revealing `dbRevealEx`. -/
def revealExEntries : List RevealEntry :=
  [⟨some "ann", some 5⟩, ⟨none, some 8⟩, ⟨some "cal", some 13⟩]

/-- The store `dbRevealEx` after its reveal: `revealed = true`, `average = 26/3`. -/
def revealExDb : DB :=
  { dbRevealEx with rooms :=
      [⟨"r1", ['A', 'B', 'C', '1', '2', '3'], "u1", "points", true, some (26 / 3), true⟩] }

/-- Witness for C1: revealing the room holding estimates `{5, 8, 13}`
returns three entries and the average `26/3`, the mean of the three. -/
theorem reveal_average_correct_witness :
    nonNullValues dbRevealEx "r1" ≠ [] ∧
    (26 / 3 : ℚ) =
      (nonNullValues dbRevealEx "r1").sum / ((nonNullValues dbRevealEx "r1").length : ℚ) ∧
    revealExEntries.length = (roundEstimates dbRevealEx "r1").length := by
  have h := reveal_average_correct dbRevealEx "r1" "u1" (revealExEntries, 26 / 3)
    revealExDb (by
      norm_num [reveal, dbRevealEx, roomsWithId, ensure_membership, memberships,
        roundEstimates, sumCount, revealName, profileFor, revealExEntries, revealExDb,
        List.find?_cons, -Option.bind_eq_none]
      simp)
  exact ⟨by decide, h.1 (by decide), h.2.2.1⟩

theorem filter_not_filter {α : Type} (p : α → Bool) (l : List α) :
    (l.filter (fun x => !(p x))).filter p = [] := by
  induction l with
  | nil => simp
  | cons x xs ih => by_cases h : p x <;> simp [h, ih]

theorem filter_map_pres {α : Type} (p : α → Bool) (f : α → α)
    (h : ∀ x, p (f x) = p x) (l : List α) :
    (l.map f).filter p = (l.filter p).map f := by
  rw [List.filter_map]
  exact congrArg _ (List.filter_congr (fun x _ => h x))

/-- Running `reveal` on an existing room with a member but an empty estimate
ledger raises 404 "No estimates found" and leaves the store unchanged. -/
theorem reveal_no_estimates (db : DB) (rid uid : String)
    (h1 : (roomsWithId db rid).isEmpty = false)
    (h2 : ensure_membership db rid uid = .ok ())
    (h3 : roundEstimates db rid = []) :
    reveal db rid uid = .error (⟨404, "No estimates found"⟩, db) := by
  simp [reveal, h1, h2, h3]

/-- A successful `reset` leaves `users` and `room_users` alone, drops the
room's estimate rows, and clears `revealed`/`average` on the room. -/
theorem reset_ok_shape (db : DB) (rid uid : String) (db' : DB)
    (h : reset db rid uid = .ok ((), db')) :
    db'.users = db.users ∧ db'.room_users = db.room_users
    ∧ db'.estimates = db.estimates.filter (fun e => !(e.room_id == rid))
    ∧ db'.rooms = db.rooms.map (fun r =>
        if r.id == rid then { r with revealed := false, average := none } else r) := by
  simp only [reset] at h
  split at h
  · simp at h
  · split at h
    · simp at h
    · simp only [Except.ok.injEq, Prod.mk.injEq, true_and] at h
      subst h
      exact ⟨rfl, rfl, rfl, rfl⟩

/-- C2: on an existing room whose estimate ledger is empty, a member's
reveal fails with 404 "No estimates found"; and a successful reset
empties the room's ledger, so a reveal straight after a reset fails the
same way. -/
theorem reveal_after_reset_notfound (db : DB) (rid uid uid2 : String) (db' : DB) :
    ((roomsWithId db rid).isEmpty = false → ensure_membership db rid uid = .ok () →
      roundEstimates db rid = [] →
      reveal db rid uid = .error (⟨404, "No estimates found"⟩, db))
    ∧ (reset db rid uid = .ok ((), db') →
        roundEstimates db' rid = []
        ∧ (ensure_membership db' rid uid2 = .ok () →
            reveal db' rid uid2 = .error (⟨404, "No estimates found"⟩, db'))) := by
  constructor
  · exact fun h1 h2 h3 => reveal_no_estimates db rid uid h1 h2 h3
  · intro hreset
    obtain ⟨_, _, hestS, hroomsS⟩ := reset_ok_shape db rid uid db' hreset
    have hne : (roomsWithId db rid).isEmpty = false := by
      cases hne0 : (roomsWithId db rid).isEmpty
      · rfl
      · simp [reset, hne0] at hreset
    have hest : roundEstimates db' rid = [] := by
      rw [roundEstimates, hestS]
      exact filter_not_filter (fun e : EstimateRow => e.room_id == rid) db.estimates
    refine ⟨hest, ?_⟩
    intro hmem2
    have hroom2 : (roomsWithId db' rid).isEmpty = false := by
      rw [roomsWithId, hroomsS, filter_map_pres]
      · cases hcase : roomsWithId db rid with
        | nil => rw [hcase] at hne; simp at hne
        | cons x xs =>
          rw [roomsWithId] at hcase
          rw [hcase]
          simp
      · intro r
        by_cases hr : r.id == rid <;> simp [hr]
    exact reveal_no_estimates db' rid uid2 hroom2 hmem2 hest

/-- Witness for C2: revealing the estimate-less room fails with 404, and
resetting the room holding `{5, 8, 13}` empties its ledger. -/
theorem reveal_after_reset_notfound_witness :
    reveal dbEmptyEx "r1" "u1" = .error (⟨404, "No estimates found"⟩, dbEmptyEx)
    ∧ roundEstimates dbEmptyEx "r1" = [] :=
  ⟨(reveal_after_reset_notfound dbEmptyEx "r1" "u1" "u1" dbEmptyEx).1
      (by decide) (by decide) (by decide),
   ((reveal_after_reset_notfound dbRevealEx "r1" "u1" "u2" dbEmptyEx).2
      (by decide)).1⟩

/-- A successful `submit_estimate` touches only the `estimates` table:
it appends a fresh row when the user had none in the room, and otherwise
overwrites the value of the first existing row in place. -/
theorem submit_ok_shape (db : DB) (rid uid : String) (v : ℚ) (nid : String) (db' : DB)
    (h : submit_estimate db rid uid v nid = .ok ((), db')) :
    db'.users = db.users ∧ db'.rooms = db.rooms ∧ db'.room_users = db.room_users
    ∧ ((userEstimates db rid uid = []
          ∧ db'.estimates = db.estimates ++ [⟨nid, rid, uid, some v⟩])
        ∨ (∃ e0 rest, userEstimates db rid uid = e0 :: rest
          ∧ db'.estimates = db.estimates.map (fun e =>
              if e.id == e0.id then { e with value := some v } else e))) := by
  simp only [submit_estimate] at h
  split at h
  · simp at h
  · split at h
    · simp at h
    · split at h
      · rename_i heq
        simp only [Except.ok.injEq, Prod.mk.injEq, true_and] at h
        subst h
        exact ⟨rfl, rfl, rfl, Or.inl ⟨heq, rfl⟩⟩
      · rename_i e0 rest heq
        simp only [Except.ok.injEq, Prod.mk.injEq, true_and] at h
        subst h
        exact ⟨rfl, rfl, rfl, Or.inr ⟨e0, rest, heq, rfl⟩⟩

/-- After a successful submit by a user holding at most one estimate row,
the user holds exactly one row and its value is the submitted one. -/
theorem submit_ok_userEstimates (db : DB) (rid uid : String) (v : ℚ) (nid : String)
    (db' : DB) (hpre : (userEstimates db rid uid).length ≤ 1)
    (h : submit_estimate db rid uid v nid = .ok ((), db')) :
    (userEstimates db' rid uid).map (fun e => e.value) = [some v] := by
  obtain ⟨_, _, _, hcase⟩ := submit_ok_shape db rid uid v nid db' h
  rcases hcase with ⟨hemp, hest⟩ | ⟨e0, rest, hex, hest⟩
  · rw [userEstimates, hest, List.filter_append]
    rw [userEstimates] at hemp
    rw [hemp]
    simp
  · have hrest : rest = [] := by
      rw [hex] at hpre
      simp only [List.length_cons] at hpre
      have : rest.length = 0 := by omega
      exact List.length_eq_zero.mp this
    subst hrest
    rw [userEstimates, hest, filter_map_pres _ _ (fun e => by
      by_cases he : e.id == e0.id <;> simp [he])]
    rw [← userEstimates, hex]
    simp

/-- C3: across any sequence of submits by one user in one room (starting
from at most one ledger row for the pair), the ledger ends with at most
one row for the pair, and after a nonempty successful sequence exactly
one row whose value is the last submitted value. -/
theorem submit_seq_upsert (db : DB) (rid uid : String) (calls : List (ℚ × String))
    (db' : DB) (hpre : (userEstimates db rid uid).length ≤ 1)
    (h : submitSeq db rid uid calls = .ok db') :
    (userEstimates db' rid uid).length ≤ 1
    ∧ (∀ v nid, calls.getLast? = some (v, nid) →
        (userEstimates db' rid uid).map (fun e => e.value) = [some v]) := by
  induction calls generalizing db with
  | nil =>
    simp only [submitSeq, Except.ok.injEq] at h
    subst h
    exact ⟨hpre, by simp⟩
  | cons c rest ih =>
    obtain ⟨v0, nid0⟩ := c
    simp only [submitSeq] at h
    split at h
    · rename_i u db1 heq
      have hstep := submit_ok_userEstimates db rid uid v0 nid0 db1 hpre heq
      have hlen1 : (userEstimates db1 rid uid).length ≤ 1 := by
        have hl := congrArg List.length hstep
        simp only [List.length_map, List.length_cons, List.length_nil] at hl
        omega
      obtain ⟨ihlen, ihlast⟩ := ih db1 hlen1 h
      refine ⟨ihlen, ?_⟩
      intro v nid hl
      cases rest with
      | nil =>
        simp only [submitSeq, Except.ok.injEq] at h
        subst h
        simp only [List.getLast?_singleton, Option.some.injEq, Prod.mk.injEq] at hl
        obtain ⟨rfl, rfl⟩ := hl
        exact hstep
      | cons c2 rest2 =>
        rw [List.getLast?_cons_cons] at hl
        exact ihlast v nid hl
    · rename_i e heq
      simp at h

/-- Witness for C3: submitting 3 then 7 in the empty-ledger room leaves
exactly one row for the user, holding the last value 7. -/
theorem submit_seq_upsert_witness :
    (userEstimates { dbEmptyEx with estimates := [⟨"e9", "r1", "u2", some 7⟩] }
        "r1" "u2").length ≤ 1
    ∧ (userEstimates { dbEmptyEx with estimates := [⟨"e9", "r1", "u2", some 7⟩] }
        "r1" "u2").map (fun e => e.value) = [some 7] := by
  have h := submit_seq_upsert dbEmptyEx "r1" "u2" [(3, "e9"), (7, "e10")]
    { dbEmptyEx with estimates := [⟨"e9", "r1", "u2", some 7⟩] }
    (by decide) (by decide)
  exact ⟨h.1, h.2 7 "e10" (by decide)⟩

/-- A user occurs in the `join-room` member list as many times as the
user has membership rows in the room. -/
theorem list_members_count (db : DB) (rid uid : String) :
    ((list_members db rid).filter (fun m => m.user_id == uid)).length
      = (memberships db rid uid).length := by
  simp only [list_members, memberships, roomMembers]
  rw [← List.countP_eq_length_filter, List.countP_map, List.countP_map,
    List.countP_filter, ← List.countP_eq_length_filter]
  apply List.countP_congr
  intro m _
  simp [Function.comp, Bool.and_comm]

/-- A successful `join_room` happened on an active room found by the
normalized code; it inserted a membership row exactly when the user had
none, and returned the member list of the resulting store. -/
theorem join_ok_shape (db : DB) (raw : List Char) (uid nid : String)
    (out : JoinRoomOut) (db1 : DB)
    (h : join_room db raw uid nid = .ok (out, db1)) :
    ∃ room, get_room_by_code db (normCode raw) = .ok room
      ∧ room.is_active = true
      ∧ out.room_id = room.id ∧ out.join_code = normCode raw
      ∧ ((memberships db room.id uid).isEmpty = true
            ∧ db1 = { db with room_users := db.room_users ++ [⟨nid, room.id, uid⟩] }
          ∨ (memberships db room.id uid).isEmpty = false ∧ db1 = db)
      ∧ out.members = list_members db1 room.id := by
  simp only [join_room] at h
  split at h
  · simp at h
  · rename_i room hfound
    refine ⟨room, hfound, ?_⟩
    split at h
    · simp at h
    · rename_i hact
      split at h
      · simp at h
      · rename_i hcap
        simp at hact
        cases hememb : (memberships db room.id uid).isEmpty with
        | true =>
          simp only [hememb, if_true] at h
          simp only [Except.ok.injEq, Prod.mk.injEq] at h
          obtain ⟨hout, hdb⟩ := h
          subst hdb
          subst hout
          exact ⟨hact, rfl, rfl, Or.inl ⟨rfl, rfl⟩, rfl⟩
        | false =>
          simp only [hememb, Bool.false_eq_true, if_false] at h
          simp only [Except.ok.injEq, Prod.mk.injEq] at h
          obtain ⟨hout, hdb⟩ := h
          subst hdb
          subst hout
          exact ⟨hact, rfl, rfl, Or.inr ⟨rfl, rfl⟩, rfl⟩

/-- C4: a join fails 403 on an inactive room; fails 403 "Room is full"
when a non-member joins a room at 15 members or more; succeeds without a
write when the user is already a member (so a retry never fails on
capacity); inserts one membership row for a new member below capacity;
and in any successful join the user ends up exactly once in the member
list. -/
theorem join_room_spec (db : DB) (raw : List Char) (uid nid : String) (room : RoomRow)
    (hroom : get_room_by_code db (normCode raw) = .ok room) :
    (room.is_active = false → join_room db raw uid nid = .error (⟨403, "Room is not active"⟩, db))
    ∧ (room.is_active = true → (memberships db room.id uid).isEmpty = true →
        15 ≤ (roomMembers db room.id).length →
        join_room db raw uid nid = .error (⟨403, "Room is full"⟩, db))
    ∧ (room.is_active = true → (memberships db room.id uid).isEmpty = false →
        join_room db raw uid nid =
          .ok (⟨room.id, normCode raw, list_members db room.id⟩, db))
    ∧ (room.is_active = true → (memberships db room.id uid).isEmpty = true →
        (roomMembers db room.id).length < 15 →
        join_room db raw uid nid =
          .ok (⟨room.id, normCode raw,
              list_members { db with room_users := db.room_users ++ [⟨nid, room.id, uid⟩] } room.id⟩,
            { db with room_users := db.room_users ++ [⟨nid, room.id, uid⟩] }))
    ∧ (∀ out db1, join_room db raw uid nid = .ok (out, db1) →
        (memberships db room.id uid).length ≤ 1 →
        (memberships db1 room.id uid).length = 1
        ∧ ((out.members.filter (fun m => m.user_id == uid)).length = 1)) := by
  refine ⟨?_, ?_, ?_, ?_, ?_⟩
  · intro h1
    simp [join_room, hroom, h1]
  · intro h1 h2 h3
    simp [join_room, hroom, h1, h2, h3]
  · intro h1 h2
    simp [join_room, hroom, h1, h2]
  · intro h1 h2 h3
    have hlt : ¬(15 ≤ (roomMembers db room.id).length) := by omega
    simp [join_room, hroom, h1, h2, hlt]
  · intro out db1 hjoin hpre
    obtain ⟨room2, hfound2, _, _, _, hins, hmem⟩ :=
      join_ok_shape db raw uid nid out db1 hjoin
    rw [hroom] at hfound2
    have hr2 : room2 = room := by simpa using hfound2.symm
    rw [hr2] at hins hmem
    have hcount : (memberships db1 room.id uid).length = 1 := by
      rcases hins with ⟨hemp, hdb1⟩ | ⟨hnemp, hdb1⟩
      · subst hdb1
        have hz : memberships db room.id uid = [] := List.isEmpty_iff.mp hemp
        have hsplit : memberships
            { db with room_users := db.room_users ++ [⟨nid, room.id, uid⟩] } room.id uid
            = memberships db room.id uid
              ++ [⟨nid, room.id, uid⟩].filter
                  (fun m => m.room_id == room.id && m.user_id == uid) := by
          simp [memberships, List.filter_append]
        rw [hsplit, hz]
        simp
      · rw [hdb1]
        have hnz : (memberships db room.id uid) ≠ [] := by
          intro hc
          rw [hc] at hnemp
          simp at hnemp
        have hpos : 0 < (memberships db room.id uid).length := List.length_pos.mpr hnz
        omega
    refine ⟨hcount, ?_⟩
    rw [hmem, list_members_count db1 room.id uid]
    exact hcount

/-- Witness for C4: a join retry by the existing member `u1` (with the
code given in lowercase) succeeds without any write, and the member
list keeps exactly one entry for the user. -/
theorem join_room_spec_witness :
    join_room dbRevealEx ("abc123".toList) "u1" "m9"
      = .ok (⟨"r1", normCode ("abc123".toList), list_members dbRevealEx "r1"⟩, dbRevealEx)
    ∧ (memberships dbRevealEx "r1" "u1").length = 1 := by
  have h := join_room_spec dbRevealEx ("abc123".toList) "u1" "m9"
    ⟨"r1", ['A', 'B', 'C', '1', '2', '3'], "u1", "points", false, none, true⟩ (by decide)
  have h3 := h.2.2.1 (by decide) (by decide)
  refine ⟨h3, ?_⟩
  have h5 := h.2.2.2.2 ⟨"r1", normCode ("abc123".toList), list_members dbRevealEx "r1"⟩
    dbRevealEx h3 (by decide)
  exact h5.1

/-- C5: on an existing room, a user without a membership row gets 403
"User not in room" from submit, reveal and reset, each before any write
(the store in the error is the input store); while any member — the
creator or not — passes the guard: reset always succeeds for a member,
and reveal succeeds for a member once the ledger is nonempty. -/
theorem nonmember_forbidden (db : DB) (rid uid : String) (v : ℚ) (nid : String)
    (hroom : (roomsWithId db rid).isEmpty = false)
    (hnm : (memberships db rid uid).isEmpty = true) :
    submit_estimate db rid uid v nid = .error (⟨403, "User not in room"⟩, db)
    ∧ reveal db rid uid = .error (⟨403, "User not in room"⟩, db)
    ∧ reset db rid uid = .error (⟨403, "User not in room"⟩, db)
    ∧ (∀ uid2, (memberships db rid uid2).isEmpty = false →
        ∃ db', reset db rid uid2 = .ok ((), db'))
    ∧ (∀ uid2, (memberships db rid uid2).isEmpty = false →
        (roundEstimates db rid).isEmpty = false →
        ∃ x, reveal db rid uid2 = .ok x) := by
  have hens : ensure_membership db rid uid = .error ⟨403, "User not in room"⟩ := by
    simp [ensure_membership, hnm]
  refine ⟨?_, ?_, ?_, ?_, ?_⟩
  · simp [submit_estimate, hroom, hens]
  · simp [reveal, hroom, hens]
  · simp [reset, hroom, hens]
  · intro uid2 hm2
    have hens2 : ensure_membership db rid uid2 = .ok () := by
      simp [ensure_membership, hm2]
    cases hr : reset db rid uid2 with
    | ok x =>
      obtain ⟨u, db2⟩ := x
      cases u
      exact ⟨db2, rfl⟩
    | error e => simp [reset, hroom, hens2] at hr
  · intro uid2 hm2 hest
    have hens2 : ensure_membership db rid uid2 = .ok () := by
      simp [ensure_membership, hm2]
    cases hr : reveal db rid uid2 with
    | ok x => exact ⟨x, rfl⟩
    | error e => simp [reveal, hroom, hens2, hest] at hr

/-- Witness for C5: the non-member `u9` is rejected by submit with 403
and no write, while the non-creator member `u2` can reset the room. -/
theorem nonmember_forbidden_witness :
    submit_estimate dbRevealEx "r1" "u9" 4 "e9"
      = .error (⟨403, "User not in room"⟩, dbRevealEx)
    ∧ ∃ db', reset dbRevealEx "r1" "u2" = .ok ((), db') := by
  have h := nonmember_forbidden dbRevealEx "r1" "u9" 4 "e9" (by decide) (by decide)
  exact ⟨h.1, h.2.2.2.1 "u2" (by decide)⟩

/-- Ensuring the creator's user row never touches the `rooms` table. -/
theorem ensureUserRow_rooms (db : DB) (uid : String) :
    (ensureUserRow db uid).rooms = db.rooms := by
  unfold ensureUserRow
  split <;> rfl

/-- The retry loop of `create_room` returns the first candidate whose
code is not yet present in the `rooms` table. -/
theorem pickJoinCode_eq_find (rooms : List RoomRow) (cands : List (List Char)) :
    pickJoinCode rooms cands
      = cands.find? (fun c => (rooms.filter (fun r => r.join_code == c)).isEmpty) := by
  induction cands with
  | nil => simp [pickJoinCode]
  | cons c rest ih =>
    by_cases hc : (rooms.filter (fun r => r.join_code == c)).isEmpty <;>
      simp [pickJoinCode, List.find?_cons, hc, ih]

/-- C6: `create_room` draws at most the first 6 join-code candidates;
when every one of those collides with a stored room it fails with 500
"Could not generate unique join code" and inserts no room; when it
succeeds, the returned code is the first of those candidates not
already present, and the returned room id is the fresh id. -/
theorem create_room_code_budget (db : DB) (uid : String) (unit : Option String)
    (hexes : List (List Char)) (rid mid : String) :
    ((∀ c ∈ (hexes.map generate_join_code).take 6, (roomsWithCode db c).isEmpty = false) →
      create_room db uid unit hexes rid mid
          = .error (⟨500, "Could not generate unique join code"⟩, ensureUserRow db uid)
        ∧ (ensureUserRow db uid).rooms = db.rooms)
    ∧ (∀ out db', create_room db uid unit hexes rid mid = .ok (out, db') →
        ((hexes.map generate_join_code).take 6).find?
            (fun c => (roomsWithCode db c).isEmpty) = some out.join_code
          ∧ out.room_id = rid) := by
  constructor
  · intro hall
    have hpick : pickJoinCode (ensureUserRow db uid).rooms
        ((hexes.map generate_join_code).take 6) = none := by
      rw [ensureUserRow_rooms, pickJoinCode_eq_find, List.find?_eq_none]
      intro c hc
      have hc2 := hall c hc
      rw [roomsWithCode] at hc2
      simp [hc2]
    refine ⟨?_, ensureUserRow_rooms db uid⟩
    simp [create_room, hpick]
  · intro out db' h
    simp only [create_room] at h
    split at h
    · simp at h
    · rename_i c hpick
      simp only [Except.ok.injEq, Prod.mk.injEq] at h
      obtain ⟨hout, hdb⟩ := h
      rw [ensureUserRow_rooms, pickJoinCode_eq_find] at hpick
      constructor
      · rw [← hout]
        exact hpick
      · rw [← hout]

/-- Witness for C6: with a candidate stream whose first six codes all
collide with the stored room `ABC123`, room creation fails with 500 and
the rooms table is untouched. -/
theorem create_room_code_budget_witness :
    create_room dbRevealEx "u1" (some "points")
        ["abc123".toList, "abc123".toList, "abc123".toList,
          "abc123".toList, "abc123".toList, "abc123".toList] "r9" "m9"
      = .error (⟨500, "Could not generate unique join code"⟩, ensureUserRow dbRevealEx "u1")
    ∧ (ensureUserRow dbRevealEx "u1").rooms = dbRevealEx.rooms :=
  (create_room_code_budget dbRevealEx "u1" (some "points")
    ["abc123".toList, "abc123".toList, "abc123".toList,
      "abc123".toList, "abc123".toList, "abc123".toList] "r9" "m9").1 (by decide)

/-- C7: looking a room up in `join_room` fails with 404 "Room not found"
when no stored room carries the normalized code; any two raw codes with
the same trim-and-uppercase normalization behave identically (the match
is case-insensitive and whitespace-insensitive); when several rooms
carry the code the first stored row is picked deterministically; and
room creation appends the new room at the end of the table, so the
first stored match is the earliest created one. -/
theorem lookup_spec (db : DB) (raw raw2 : List Char) (uid nid : String) :
    (roomsWithCode db (normCode raw) = [] →
      join_room db raw uid nid = .error (⟨404, "Room not found"⟩, db))
    ∧ (∀ r rest, roomsWithCode db (normCode raw) = r :: rest →
        get_room_by_code db (normCode raw) = .ok r)
    ∧ (normCode raw = normCode raw2 →
        join_room db raw uid nid = join_room db raw2 uid nid)
    ∧ (∀ unitArg hexes rid mid out db',
        create_room db uid unitArg hexes rid mid = .ok (out, db') →
        ∃ room, db'.rooms = db.rooms ++ [room]
          ∧ room.join_code = out.join_code ∧ room.id = out.room_id) := by
  refine ⟨?_, ?_, ?_, ?_⟩
  · intro h1
    simp [join_room, get_room_by_code, h1]
  · intro r rest h1
    simp [get_room_by_code, h1]
  · intro h1
    simp only [join_room, h1]
  · intro unitArg hexes rid mid out db' h
    simp only [create_room] at h
    split at h
    · simp at h
    · rename_i c hpick
      simp only [Except.ok.injEq, Prod.mk.injEq] at h
      obtain ⟨hout, hdb⟩ := h
      refine ⟨⟨rid, c, uid, normalizeUnit unitArg, false, none, true⟩, ?_, ?_, ?_⟩
      · rw [← hdb, ← ensureUserRow_rooms db uid]
        split <;> rfl
      · rw [← hout]
      · rw [← hout]

/-- Witness for C7: no stored room carries code `ZZZZ`, so joining with
it fails 404; and joining with `" abc123 "` is the same call as joining
with `"ABC123"`. -/
theorem lookup_spec_witness :
    join_room dbRevealEx ("zzzz".toList) "u1" "m9"
      = .error (⟨404, "Room not found"⟩, dbRevealEx)
    ∧ join_room dbRevealEx (" abc123 ".toList) "u1" "m9"
      = join_room dbRevealEx ("ABC123".toList) "u1" "m9" := by
  have h := lookup_spec dbRevealEx ("zzzz".toList) ("zzzz".toList) "u1" "m9"
  have h2 := lookup_spec dbRevealEx (" abc123 ".toList) ("ABC123".toList) "u1" "m9"
  exact ⟨h.1 (by decide), h2.2.2.1 (by decide)⟩

/-- C8: identity resolution — a present bearer token is exchanged with
the provider: unreachable provider gives 503, a rejection or a missing
or empty id gives 401; with no token, a nonempty legacy id is accepted
as the identity, and with neither the request fails 401. -/
theorem get_current_user_id_spec (provider : List Char → AuthResponse)
    (auth : Option (List Char)) (t : List Char) (f : String) :
    (extractBearerToken auth = some t → provider t = .unreachable →
      ∀ fb, get_current_user_id provider auth fb
        = .error ⟨503, "Auth service unavailable"⟩)
    ∧ (∀ status uid, extractBearerToken auth = some t →
        provider t = .response status uid → status ≠ 200 →
        ∀ fb, get_current_user_id provider auth fb
          = .error ⟨401, "Invalid or expired token"⟩)
    ∧ (extractBearerToken auth = some t → provider t = .response 200 none →
        ∀ fb, get_current_user_id provider auth fb
          = .error ⟨401, "Invalid token payload"⟩)
    ∧ (extractBearerToken auth = some t → provider t = .response 200 (some "") →
        ∀ fb, get_current_user_id provider auth fb
          = .error ⟨401, "Invalid token payload"⟩)
    ∧ (extractBearerToken auth = none → f ≠ "" →
        get_current_user_id provider auth (some f) = .ok f)
    ∧ (extractBearerToken auth = none →
        get_current_user_id provider auth none
          = .error ⟨401, "Authorization token required"⟩) := by
  refine ⟨?_, ?_, ?_, ?_, ?_, ?_⟩
  · intro h1 h2 fb
    simp [get_current_user_id, h1, h2]
  · intro status uid h1 h2 h3 fb
    simp [get_current_user_id, h1, h2, h3]
  · intro h1 h2 fb
    simp [get_current_user_id, h1, h2]
  · intro h1 h2 fb
    simp [get_current_user_id, h1, h2]
  · intro h1 h2
    simp [get_current_user_id, h1, h2]
  · intro h1
    simp [get_current_user_id, h1]

/-- Witness for C8: with an unreachable provider and a well-formed
bearer header the request fails 503; with no header the legacy id `u1`
is accepted; with neither the request fails 401. -/
theorem get_current_user_id_spec_witness :
    get_current_user_id (fun _ => .unreachable) (some ("Bearer tok".toList)) (some "u1")
      = .error ⟨503, "Auth service unavailable"⟩
    ∧ get_current_user_id (fun _ => .unreachable) none (some "u1") = .ok "u1"
    ∧ get_current_user_id (fun _ => .unreachable) none none
      = .error ⟨401, "Authorization token required"⟩ := by
  have h1 := get_current_user_id_spec (fun _ => .unreachable)
    (some ("Bearer tok".toList)) ("tok".toList) "u1"
  have h2 := get_current_user_id_spec (fun _ => .unreachable) none ("tok".toList) "u1"
  exact ⟨h1.1 (by decide) rfl (some "u1"), h2.2.2.2.2.1 rfl (by decide),
    h2.2.2.2.2.2 rfl⟩

/-- C9: a present but malformed Authorization header — empty, or not
exactly two whitespace-separated parts with the first `bearer`
case-insensitively — yields no token, so the request behaves exactly as
if the header were absent and resolves via a supplied legacy id. -/
theorem malformed_header_ignored (provider : List Char → AuthResponse)
    (a : List Char) (f : String)
    (hm : ∀ p0 p1, pySplitWs a = [p0, p1] →
      ¬(pyLower p0 == "bearer".toList) = true) :
    extractBearerToken (some a) = none
    ∧ (∀ fb, get_current_user_id provider (some a) fb
        = get_current_user_id provider none fb)
    ∧ (f ≠ "" → get_current_user_id provider (some a) (some f) = .ok f) := by
  have hext : extractBearerToken (some a) = none := by
    simp only [extractBearerToken]
    split
    · rfl
    · split
      · rename_i p0 p1 hsplit
        have hb := hm p0 p1 hsplit
        simp at hb
        simp [hb]
      · rfl
  refine ⟨hext, ?_, ?_⟩
  · intro fb
    have hn : extractBearerToken none = none := rfl
    simp [get_current_user_id, hext, hn]
  · intro hf
    simp [get_current_user_id, hext, hf]

/-- Witness for C9: the three-part header `"Bearer x y"` is malformed,
is treated as absent, and the legacy id `u1` is used instead. -/
theorem malformed_header_ignored_witness :
    extractBearerToken (some ("Bearer x y".toList)) = none
    ∧ get_current_user_id (fun _ => .unreachable)
        (some ("Bearer x y".toList)) (some "u1") = .ok "u1" := by
  have h := malformed_header_ignored (fun _ => .unreachable) ("Bearer x y".toList) "u1"
    (by
      intro p0 p1 hsplit
      have h3 : (pySplitWs ("Bearer x y".toList)).length = 3 := by decide
      rw [hsplit] at h3
      simp at h3)
  exact ⟨h.1, h.2.2 (by decide)⟩

/-- The sixteen characters `uuid4().hex` can produce. -/
def lowerHexDigits : List Char :=
  "0123456789abcdef".toList

/-- The characters a generated join code can contain. -/
def upperHexDigits : List Char :=
  "0123456789ABCDEF".toList

theorem lowerHex_upper_facts : ∀ c ∈ lowerHexDigits,
    c.toUpper ∈ upperHexDigits ∧ c.toUpper.isWhitespace = false
      ∧ c.toUpper.toUpper = c.toUpper := by
  decide

theorem dropWhile_eq_self_of_none {p : Char → Bool} {l : List Char}
    (h : ∀ c ∈ l, p c = false) : l.dropWhile p = l := by
  cases l with
  | nil => rfl
  | cons c cs =>
    rw [List.dropWhile_cons, h c (by simp)]
    simp

theorem pyStrip_eq_self {l : List Char} (h : ∀ c ∈ l, c.isWhitespace = false) :
    pyStrip l = l := by
  rw [pyStrip, dropWhile_eq_self_of_none h, dropWhile_eq_self_of_none, List.reverse_reverse]
  intro c hc
  exact h c (List.mem_reverse.mp hc)

theorem map_eq_self_of_eq {f : Char → Char} {l : List Char} (h : ∀ c ∈ l, f c = c) :
    l.map f = l := by
  induction l with
  | nil => rfl
  | cons c cs ih =>
    rw [List.map_cons, h c (by simp), ih]
    intro x hx
    exact h x (by simp [hx])

/-- C10: when fed at least six lowercase hexadecimal characters,
`generate_join_code` returns exactly six characters, all uppercase
hexadecimal; such a code is a fixed point of the trim-and-uppercase
normalization, so `join_room` finds a stored generated code by exact
equality of the normalized input. -/
theorem generate_join_code_spec (hex : List Char)
    (hlen : 6 ≤ hex.length) (hchars : ∀ c ∈ hex, c ∈ lowerHexDigits) :
    (generate_join_code hex).length = 6
    ∧ (∀ c ∈ generate_join_code hex, c ∈ upperHexDigits)
    ∧ normCode (generate_join_code hex) = generate_join_code hex
    ∧ (∀ db, get_room_by_code db (normCode (generate_join_code hex))
        = get_room_by_code db (generate_join_code hex)) := by
  have hcode : ∀ c ∈ generate_join_code hex,
      c ∈ upperHexDigits ∧ c.isWhitespace = false ∧ c.toUpper = c := by
    intro c hc
    simp only [generate_join_code, List.mem_map] at hc
    obtain ⟨d, hd, rfl⟩ := hc
    exact lowerHex_upper_facts d (hchars d (List.take_subset 6 hex hd))
  have hnorm : normCode (generate_join_code hex) = generate_join_code hex := by
    rw [normCode, pyStrip_eq_self (fun c hc => (hcode c hc).2.1), pyUpper,
      map_eq_self_of_eq (fun c hc => (hcode c hc).2.2)]
  refine ⟨?_, fun c hc => (hcode c hc).1, hnorm, fun db => by rw [hnorm]⟩
  simp only [generate_join_code, List.length_map, List.length_take]
  omega

/-- Witness for C10: the hex draw `a1b2c3` yields the six uppercase
characters `A1B2C3`, stable under normalization. -/
theorem generate_join_code_spec_witness :
    (generate_join_code ("a1b2c3".toList)).length = 6
    ∧ normCode (generate_join_code ("a1b2c3".toList))
      = generate_join_code ("a1b2c3".toList) := by
  have h := generate_join_code_spec ("a1b2c3".toList) (by decide) (by decide)
  exact ⟨h.1, h.2.2.1⟩

end ScrumPoker
